import Mathlib

/-
  Verification of the contextkit repository's retrieval and
  context-composition engine against its specification.

  Shallow embedding notes:
  * JSON values (Python dicts/lists/strings/ints/bools/None loaded by
    `json.loads` and produced by `introspect_postgres`) are modelled by the
    inductive type `JVal`.  Python dicts are association lists; Python
    guarantees their keys are pairwise distinct, which the invariance
    theorems take as the hypothesis `NK`.
  * The blake3 hex digest is an opaque pure function; every statement is
    proved for an arbitrary `digest : String → String` standing for
    `blake3(data).hexdigest()`.
  * `str.strip` / `str.lower` act on full Unicode in Python; the embedding
    uses `Char.isWhitespace` / `Char.toLower`.  No claim depends on the
    difference.
-/

namespace ContextKit

/-- JSON-like values: the data `json.loads` / `introspect_postgres` produce. -/
inductive JVal where
  | null
  | bool (b : Bool)
  | num (n : Int)
  | str (s : String)
  | arr (xs : List JVal)
  | obj (kvs : List (String × JVal))

/-- Python `str.strip()`: drop leading and trailing whitespace. -/
def pyStrip (s : String) : String :=
  String.mk (((s.data.dropWhile Char.isWhitespace).reverse.dropWhile
    Char.isWhitespace).reverse)

/-- Python `str.lower()` (ASCII; no claim uses non-ASCII case folding). -/
def pyLower (s : String) : String := String.mk (s.data.map Char.toLower)

/-- Python `s[:n]` on strings. -/
def pyTake (s : String) (n : Nat) : String := String.mk (s.data.take n)

/-- Whether the first char list is a prefix of the second. -/
def isPrefixChars : List Char → List Char → Bool
  | [], _ => true
  | _ :: _, [] => false
  | p :: ps, x :: xs => p == x && isPrefixChars ps xs

/-- Whether `pat` occurs contiguously in the char list. -/
def isSubstrChars (pat : List Char) : List Char → Bool
  | [] => pat.isEmpty
  | l@(_ :: xs) => isPrefixChars pat l || isSubstrChars pat xs

/-- Python `pat in s` on strings. -/
def containsSub (s pat : String) : Bool := isSubstrChars pat.data s.data

/-- Python `s.startswith(pre)`. -/
def pyStartsWith (s pre : String) : Bool := isPrefixChars pre.data s.data

/-- Python `s.endswith(suffix)`. -/
def pyEndsWith (s suffix : String) : Bool :=
  isPrefixChars suffix.data.reverse s.data.reverse

/-- Split a char list at every occurrence of `c` (Python
`str.split(sep)` with a one-character separator, as the source uses). -/
def splitOnChar (c : Char) : List Char → List (List Char)
  | [] => [[]]
  | x :: xs =>
    match splitOnChar c xs with
    | [] => [[]]
    | h :: t => if x == c then [] :: h :: t else (x :: h) :: t

/-- Python `s.split(c)` for a one-character separator. -/
def pySplit (s : String) (c : Char) : List String :=
  (splitOnChar c s.data).map String.mk

/-- Collapse every maximal run of whitespace to one space, mirroring
`re.sub(r"\s+", " ", ...)` in `schema_fp._normalize_ident`; the flag records
whether the previous character was whitespace. -/
def collapseWsGo : Bool → List Char → List Char
  | _, [] => []
  | prevWs, c :: rest =>
    if c.isWhitespace then
      if prevWs then collapseWsGo true rest
      else ' ' :: collapseWsGo true rest
    else c :: collapseWsGo false rest

/-- `schema_fp._normalize_ident`: strip, collapse inner whitespace, lowercase. -/
def normalizeIdent (s : String) : String :=
  String.mk ((collapseWsGo false (pyStrip s).data).map Char.toLower)

/-- Key order used by `sorted(obj)` on the dict keys: compare the key strings. -/
def keyLE (a b : String × JVal) : Prop := a.1 ≤ b.1

instance : DecidableRel keyLE := fun a b => inferInstanceAs (Decidable (a.1 ≤ b.1))

instance : IsTotal (String × JVal) keyLE := ⟨fun a b => le_total a.1 b.1⟩

instance : IsTrans (String × JVal) keyLE := ⟨fun _ _ _ h1 h2 => le_trans h1 h2⟩

/-- Strict key order, used to show sorted duplicate-free lists are unique. -/
def keyLT (a b : String × JVal) : Prop := a.1 < b.1

instance : IsAntisymm (String × JVal) keyLT :=
  ⟨fun _ _ h1 h2 => absurd (lt_trans h1 h2) (lt_irrefl _)⟩

mutual

/-- The recursive `norm` helper of `schema_fp.fingerprint_schema_json`:
mapping keys sorted, list elements normalized in order, string leaves
identifier-normalized, other leaves returned unchanged. -/
def norm : JVal → JVal
  | .null => .null
  | .bool b => .bool b
  | .num n => .num n
  | .str s => .str (normalizeIdent s)
  | .arr xs => .arr (normList xs)
  | .obj kvs => .obj (List.insertionSort keyLE (normPairs kvs))

/-- `norm` mapped over the elements of a JSON array. -/
def normList : List JVal → List JVal
  | [] => []
  | x :: xs => norm x :: normList xs

/-- `norm` mapped over the values of a JSON object. -/
def normPairs : List (String × JVal) → List (String × JVal)
  | [] => []
  | (k, v) :: ps => (k, norm v) :: normPairs ps

end

/-- One hexadecimal digit, lowercase. -/
def hexDigit (n : Nat) : Char :=
  if n < 10 then Char.ofNat (48 + n) else Char.ofNat (87 + n)

/-- Four hexadecimal digits, as in a JSON `\uXXXX` escape. -/
def hex4 (n : Nat) : String :=
  String.mk [hexDigit (n / 4096 % 16), hexDigit (n / 256 % 16),
    hexDigit (n / 16 % 16), hexDigit (n % 16)]

/-- Escape one character the way `json.dumps` (default `ensure_ascii=True`)
does inside a string literal. -/
def jsonEscapeChar (c : Char) : String :=
  if c = '"' then "\\\""
  else if c = '\\' then "\\\\"
  else if c = '\n' then "\\n"
  else if c = '\r' then "\\r"
  else if c = '\t' then "\\t"
  else if c.toNat = 8 then "\\b"
  else if c.toNat = 12 then "\\f"
  else if c.toNat < 32 then "\\u" ++ hex4 c.toNat
  else if c.toNat < 127 then String.mk [c]
  else if c.toNat < 65536 then "\\u" ++ hex4 c.toNat
  else
    "\\u" ++ hex4 (55296 + (c.toNat - 65536) / 1024) ++
      "\\u" ++ hex4 (56320 + (c.toNat - 65536) % 1024)

/-- A JSON string literal for `s`, per `json.dumps`. -/
def jsonQuote (s : String) : String :=
  "\"" ++ String.join (s.data.map jsonEscapeChar) ++ "\""

mutual

/-- `json.dumps(value, separators=(",", ":"))`: canonical whitespace-free
JSON encoding. -/
def serialize : JVal → String
  | .null => "null"
  | .bool true => "true"
  | .bool false => "false"
  | .num n => toString n
  | .str s => jsonQuote s
  | .arr xs => "[" ++ serializeList xs ++ "]"
  | .obj kvs => "\x7b" ++ serializeObj kvs ++ "\x7d"

/-- Comma-joined serialization of array elements. -/
def serializeList : List JVal → String
  | [] => ""
  | [x] => serialize x
  | x :: y :: xs => serialize x ++ "," ++ serializeList (y :: xs)

/-- Comma-joined serialization of object entries, `"key":value` each. -/
def serializeObj : List (String × JVal) → String
  | [] => ""
  | [(k, v)] => jsonQuote k ++ ":" ++ serialize v
  | (k, v) :: p :: ps => jsonQuote k ++ ":" ++ serialize v ++ "," ++ serializeObj (p :: ps)

end

/-- `schema_fp.fingerprint_schema_json`: normalize, serialize canonically,
hash, and tag.  `digest` stands for the pure function
`blake3(data).hexdigest()`. -/
def fingerprint_schema_json (digest : String → String) (schema : JVal) : String :=
  "blake3:" ++ digest (serialize (norm schema))

/-- Well-formedness of a value that came from a Python dict tree: every
object has pairwise-distinct keys. -/
inductive NK : JVal → Prop where
  | null : NK .null
  | bool (b : Bool) : NK (.bool b)
  | num (n : Int) : NK (.num n)
  | str (s : String) : NK (.str s)
  | arr {xs : List JVal} : (∀ x ∈ xs, NK x) → NK (.arr xs)
  | obj {kvs : List (String × JVal)} :
      (kvs.map Prod.fst).Nodup → (∀ p ∈ kvs, NK p.2) → NK (.obj kvs)

mutual

/-- `KP a b`: `b` is obtained from `a` by permuting the key order of any of
its nested mappings (array order and all content unchanged). -/
inductive KP : JVal → JVal → Prop where
  | null : KP .null .null
  | bool (b : Bool) : KP (.bool b) (.bool b)
  | num (n : Int) : KP (.num n) (.num n)
  | str (s : String) : KP (.str s) (.str s)
  | arr {xs ys : List JVal} : KPList xs ys → KP (.arr xs) (.arr ys)
  | obj {l₁ l' l₂ : List (String × JVal)} :
      l₁.Perm l' → KPPairs l' l₂ → KP (.obj l₁) (.obj l₂)

/-- Pointwise `KP` on array elements. -/
inductive KPList : List JVal → List JVal → Prop where
  | nil : KPList [] []
  | cons {x y : JVal} {xs ys : List JVal} :
      KP x y → KPList xs ys → KPList (x :: xs) (y :: ys)

/-- Pointwise key-preserving `KP` on object entries. -/
inductive KPPairs : List (String × JVal) → List (String × JVal) → Prop where
  | nil : KPPairs [] []
  | cons {p q : String × JVal} {ps qs : List (String × JVal)} :
      p.1 = q.1 → KP p.2 q.2 → KPPairs ps qs → KPPairs (p :: ps) (q :: qs)

end

theorem normList_eq_map (xs : List JVal) : normList xs = xs.map norm := by
  induction xs with
  | nil => rfl
  | cons x xs ih => simp [normList, ih]

theorem normPairs_eq_map (ps : List (String × JVal)) :
    normPairs ps = ps.map (fun p => (p.1, norm p.2)) := by
  induction ps with
  | nil => rfl
  | cons p ps ih => obtain ⟨k, v⟩ := p; simp [normPairs, ih]

/-- Sorting by key is insensitive to the input order when keys are distinct. -/
theorem sortKeys_eq_of_perm {l₁ l₂ : List (String × JVal)} (h : l₁.Perm l₂)
    (hnd : (l₁.map Prod.fst).Nodup) :
    List.insertionSort keyLE l₁ = List.insertionSort keyLE l₂ := by
  have hp : (List.insertionSort keyLE l₁).Perm (List.insertionSort keyLE l₂) :=
    (List.perm_insertionSort keyLE l₁).trans
      (h.trans (List.perm_insertionSort keyLE l₂).symm)
  have hs₁ := List.sorted_insertionSort keyLE l₁
  have hs₂ := List.sorted_insertionSort keyLE l₂
  have hnd₁ : ((List.insertionSort keyLE l₁).map Prod.fst).Nodup :=
    ((List.perm_insertionSort keyLE l₁).map Prod.fst).nodup_iff.mpr hnd
  have hnd₂ : ((List.insertionSort keyLE l₂).map Prod.fst).Nodup :=
    (hp.map Prod.fst).nodup_iff.mp hnd₁
  have hne₁ : (List.insertionSort keyLE l₁).Pairwise (fun a b => a.1 ≠ b.1) :=
    (List.pairwise_map).mp hnd₁
  have hne₂ : (List.insertionSort keyLE l₂).Pairwise (fun a b => a.1 ≠ b.1) :=
    (List.pairwise_map).mp hnd₂
  have hlt₁ : (List.insertionSort keyLE l₁).Sorted keyLT :=
    (hs₁.and hne₁).imp fun hab => lt_of_le_of_ne hab.1 hab.2
  have hlt₂ : (List.insertionSort keyLE l₂).Sorted keyLT :=
    (hs₂.and hne₂).imp fun hab => lt_of_le_of_ne hab.1 hab.2
  exact List.eq_of_perm_of_sorted hp hlt₁ hlt₂

theorem kplist_map_norm {n : Nat}
    (ih : ∀ a b, sizeOf a ≤ n → NK a → KP a b → norm a = norm b) :
    ∀ (xs ys : List JVal), KPList xs ys →
      (∀ x ∈ xs, NK x ∧ sizeOf x ≤ n) → xs.map norm = ys.map norm := by
  intro xs
  induction xs with
  | nil => intro ys h _; cases h; rfl
  | cons x xs iht =>
    intro ys h hmem
    cases h with
    | cons hxy htail =>
      have h1 := hmem _ (List.mem_cons_self _ _)
      simp only [List.map_cons]
      rw [ih _ _ h1.2 h1.1 hxy,
        iht _ htail (fun z hz => hmem z (List.mem_cons_of_mem _ hz))]

theorem kppairs_map_norm {n : Nat}
    (ih : ∀ a b, sizeOf a ≤ n → NK a → KP a b → norm a = norm b) :
    ∀ (ps qs : List (String × JVal)), KPPairs ps qs →
      (∀ p ∈ ps, NK p.2 ∧ sizeOf p.2 ≤ n) →
      ps.map (fun p => (p.1, norm p.2)) = qs.map (fun p => (p.1, norm p.2)) := by
  intro ps
  induction ps with
  | nil => intro qs h _; cases h; rfl
  | cons p ps iht =>
    intro qs h hmem
    cases h with
    | cons hk hv htail =>
      have h1 := hmem _ (List.mem_cons_self _ _)
      simp only [List.map_cons]
      rw [iht _ htail (fun z hz => hmem z (List.mem_cons_of_mem _ hz))]
      congr 1
      exact Prod.ext hk (ih _ _ h1.2 h1.1 hv)

theorem sizeOf_pos (a : JVal) : 0 < sizeOf a := by
  cases a <;> simp

theorem norm_eq_of_kp_aux :
    ∀ n a b, sizeOf a ≤ n → NK a → KP a b → norm a = norm b := by
  intro n
  induction n with
  | zero => intro a b hs _ _; exact absurd hs (by have := sizeOf_pos a; omega)
  | succ n ih =>
    intro a b hs hnk hkp
    cases hkp with
    | null => rfl
    | bool b => rfl
    | num m => rfl
    | str s => rfl
    | arr hl =>
      rename_i xs ys
      cases hnk with
      | arr hx =>
        simp only [norm, normList_eq_map]
        rw [kplist_map_norm ih _ _ hl]
        intro x hxm
        refine ⟨hx x hxm, ?_⟩
        have h1 := List.sizeOf_lt_of_mem hxm
        have h2 : sizeOf (JVal.arr xs) = 1 + sizeOf xs := by simp
        omega
    | obj hperm hpairs =>
      rename_i l₁ l' l₂
      cases hnk with
      | obj hnd hmem =>
        simp only [norm, normPairs_eq_map]
        have hmap : (l₁.map (fun p => (p.1, norm p.2))).Perm
            (l'.map (fun p => (p.1, norm p.2))) := hperm.map _
        have heq : l'.map (fun p => (p.1, norm p.2)) =
            l₂.map (fun p => (p.1, norm p.2)) := by
          refine kppairs_map_norm ih _ _ hpairs ?_
          intro p hp
          have hp₁ : p ∈ l₁ := (hperm.mem_iff).mpr hp
          refine ⟨hmem p hp₁, ?_⟩
          have h1 := List.sizeOf_lt_of_mem hp₁
          have h2 : sizeOf (JVal.obj l₁) = 1 + sizeOf l₁ := by simp
          obtain ⟨pk, pv⟩ := p
          simp only at *
          have h3 : sizeOf (pk, pv) = 1 + sizeOf pk + sizeOf pv := by simp
          omega
        have hperm2 : (l₁.map (fun p => (p.1, norm p.2))).Perm
            (l₂.map (fun p => (p.1, norm p.2))) := heq ▸ hmap
        refine congrArg JVal.obj (sortKeys_eq_of_perm hperm2 ?_)
        have : (l₁.map (fun p => (p.1, norm p.2))).map Prod.fst = l₁.map Prod.fst := by
          simp
        rw [this]
        exact hnd

/-- C1. For every schema snapshot `S` with distinct mapping keys and every
reordering `T` of the key order of any of its nested mappings,
`fingerprint_schema_json` gives the same string on `S` and `T`; and being a
pure function of the normalized form, it returns the same string on any two
inputs with the same normalized form.  Proved for an arbitrary digest
function standing for blake3. -/
theorem c1_fingerprint_key_order_invariant (digest : String → String)
    (S T : JVal) (h1 : NK S) (h2 : KP S T) :
    fingerprint_schema_json digest S = fingerprint_schema_json digest T ∧
      ∀ U : JVal, norm S = norm U →
        fingerprint_schema_json digest S = fingerprint_schema_json digest U := by
  constructor
  · unfold fingerprint_schema_json
    rw [norm_eq_of_kp_aux (sizeOf S) S T le_rfl h1 h2]
  · intro U hU
    unfold fingerprint_schema_json
    rw [hU]

/-- Concrete example schema for the C1 witness. -/
def c1exS : JVal := .obj [("b", .num 1), ("a", .str ("X  Y"))]

/-- `c1exS` with its top-level key order permuted. -/
def c1exT : JVal := .obj [("a", .str ("X  Y")), ("b", .num 1)]

/-- Witness for C1 at a concrete schema, key permutation and digest. -/
theorem c1_witness :
    NK c1exS ∧ KP c1exS c1exT ∧
      fingerprint_schema_json (fun s => s) c1exS =
        fingerprint_schema_json (fun s => s) c1exT := by
  have hnk : NK c1exS := by
    refine NK.obj (by decide) ?_
    intro p hp
    simp only [c1exS, List.mem_cons, List.mem_singleton] at hp
    rcases hp with rfl | rfl | h
    · exact NK.num 1
    · exact NK.str _
    · exact absurd h (List.not_mem_nil _)
  have hkp : KP c1exS c1exT := by
    refine @KP.obj _ [("a", .str ("X  Y")), ("b", .num 1)] _
      (List.Perm.swap _ _ _) ?_
    exact KPPairs.cons rfl (KP.str _) (KPPairs.cons rfl (KP.num _) KPPairs.nil)
  exact ⟨hnk, hkp,
    (c1_fingerprint_key_order_invariant (fun s => s) c1exS c1exT hnk hkp).1⟩

/-- First value bound to key `k` in an association list (Python dict access;
Python dict keys are unique, so first match is the match). -/
def lookupJ (k : String) : List (String × JVal) → Option JVal
  | [] => none
  | p :: ps => if p.1 = k then some p.2 else lookupJ k ps

/-- Python `d.get(k, default)` on a JSON object (`d[k]` where the key is
known to be present is the same with an unreachable default). -/
def dGet (v : JVal) (k : String) (d : JVal) : JVal :=
  match v with
  | .obj l => (lookupJ k l).getD d
  | _ => d

/-- Python `d.get(k)` on a JSON object: `None` when absent. -/
def dGetOpt (v : JVal) (k : String) : Option JVal :=
  match v with
  | .obj l => lookupJ k l
  | _ => none

/-- `d.keys()` of a JSON object, in insertion order. -/
def keysJ : JVal → List String
  | .obj l => l.map Prod.fst
  | _ => []

/-- The empty JSON object, Python `{}`. -/
def jEmptyObj : JVal := .obj []

mutual

/-- Python `==` on JSON values: dict comparison ignores key order.  (The
object case assumes the Python invariant of duplicate-free keys.) -/
def pyEq : JVal → JVal → Bool
  | .null, .null => true
  | .bool a, .bool b => a == b
  | .num a, .num b => a == b
  | .str a, .str b => a == b
  | .arr xs, .arr ys => pyEqList xs ys
  | .obj ps, .obj qs => ps.length == qs.length && pyEqObj ps qs
  | _, _ => false

/-- Pointwise Python `==` on list elements. -/
def pyEqList : List JVal → List JVal → Bool
  | [], [] => true
  | x :: xs, y :: ys => pyEq x y && pyEqList xs ys
  | _, _ => false

/-- Every entry of the first object compares `==` with the entry of the
same key in the second. -/
def pyEqObj : List (String × JVal) → List (String × JVal) → Bool
  | [], _ => true
  | (k, v) :: ps, qs =>
    (match lookupJ k qs with
     | some w => pyEq v w
     | none => false) && pyEqObj ps qs

end

/-- Python `==` where either side may be `None` (`dict.get` misses). -/
def pyEqOpt : Option JVal → Option JVal → Bool
  | none, none => true
  | some a, some b => pyEq a b
  | _, _ => false

mutual

/-- Python `repr` of a JSON value (string escaping inside `repr` is not
reproduced; no claim exercises it). -/
def pyRepr : JVal → String
  | .null => "None"
  | .bool true => "True"
  | .bool false => "False"
  | .num n => toString n
  | .str s => "\x27" ++ s ++ "\x27"
  | .arr xs => "[" ++ pyReprList xs ++ "]"
  | .obj kvs => "\x7b" ++ pyReprObj kvs ++ "\x7d"

/-- Comma-joined `repr` of list elements. -/
def pyReprList : List JVal → String
  | [] => ""
  | [x] => pyRepr x
  | x :: y :: xs => pyRepr x ++ ", " ++ pyReprList (y :: xs)

/-- Comma-joined `repr` of dict entries. -/
def pyReprObj : List (String × JVal) → String
  | [] => ""
  | [(k, v)] => "\x27" ++ k ++ "\x27: " ++ pyRepr v
  | (k, v) :: p :: ps => "\x27" ++ k ++ "\x27: " ++ pyRepr v ++ ", " ++ pyReprObj (p :: ps)

end

/-- Python `str` as used in an f-string: strings verbatim, `repr` shape for
containers. -/
def pyStr : JVal → String
  | .str s => s
  | v => pyRepr v

/-- `str` of a `dict.get` result that may be `None`. -/
def pyStrOpt : Option JVal → String
  | none => "None"
  | some v => pyStr v

/-- Python truthiness of a JSON value (`if not old_schema`). -/
def pyFalsy : JVal → Bool
  | .null => true
  | .bool b => !b
  | .num n => n == 0
  | .str s => s == ""
  | .arr xs => xs.isEmpty
  | .obj kvs => kvs.isEmpty

/-- `SchemaDrift.has_changes`: fingerprints differ. -/
def has_changes (digest : String → String) (old newS : JVal) : Bool :=
  fingerprint_schema_json digest old != fingerprint_schema_json digest newS

/-- `SchemaDrift.get_table_changes`.  Python iterates the set differences in
unspecified hash order and records them in one dict; the embedding fixes a
deterministic order (added, removed, modified, each in dict insertion
order).  No proved claim depends on the order, only on which entries
exist. -/
def get_table_changes (old newS : JVal) : List (String × String) :=
  let oldT := dGet old ("tables") jEmptyObj
  let newT := dGet newS ("tables") jEmptyObj
  let oldK := keysJ oldT
  let newK := keysJ newT
  (newK.filter (fun t => decide (t ∉ oldK))).map (fun t => (t, "added")) ++
    (oldK.filter (fun t => decide (t ∉ newK))).map (fun t => (t, "removed")) ++
    (oldK.filter (fun t => decide (t ∈ newK))).filterMap (fun t =>
      let old_cols := dGet (dGet oldT t JVal.null) ("columns") jEmptyObj
      let new_cols := dGet (dGet newT t JVal.null) ("columns") jEmptyObj
      if pyEq old_cols new_cols then none else some (t, "modified"))

/-- `SchemaDrift.get_column_changes` for one table, with the same
deterministic ordering convention as `get_table_changes`. -/
def get_column_changes (old newS : JVal) (table_name : String) :
    List (String × String) :=
  let old_table := dGet (dGet old ("tables") jEmptyObj) table_name jEmptyObj
  let new_table := dGet (dGet newS ("tables") jEmptyObj) table_name jEmptyObj
  let old_cols := dGet old_table ("columns") jEmptyObj
  let new_cols := dGet new_table ("columns") jEmptyObj
  let oldK := keysJ old_cols
  let newK := keysJ new_cols
  (newK.filter (fun c => decide (c ∉ oldK))).map (fun c => (c, "added")) ++
    (oldK.filter (fun c => decide (c ∉ newK))).map (fun c => (c, "removed")) ++
    (oldK.filter (fun c => decide (c ∈ newK))).filterMap (fun c =>
      let old_type := dGetOpt (dGet old_cols c JVal.null) ("type")
      let new_type := dGetOpt (dGet new_cols c JVal.null) ("type")
      if pyEqOpt old_type new_type then none
      else some (c, "type_changed: " ++ pyStrOpt old_type ++ " -> " ++ pyStrOpt new_type))

/-- Whether a column-change entry is breaking: `removed` or a type
change (`change.startswith("type_changed")` in the source). -/
def isBreakingColChange (change : String) : Bool :=
  change == "removed" || pyStartsWith change ("type_changed")

/-- `SchemaDrift.get_compatibility_level`: identical / breaking /
compatible, in the source's precedence order. -/
def get_compatibility_level (digest : String → String) (old newS : JVal) : String :=
  if !has_changes digest old newS then "identical"
  else
    let table_changes := get_table_changes old newS
    if table_changes.any (fun p => p.2 == "removed") then "breaking"
    else if (keysJ (dGet old ("tables") jEmptyObj)).any (fun t =>
        decide (t ∈ keysJ (dGet newS ("tables") jEmptyObj)) &&
          (get_column_changes old newS t).any (fun c => isBreakingColChange c.2)) then
      "breaking"
    else "compatible"

/-- Column lines of `SchemaDrift.generate_migration_notes`. -/
def columnNotes (colChanges : List (String × String)) : List String :=
  colChanges.filterMap (fun cc =>
    if cc.2 == "added" then some ("  ✅ Added column: " ++ cc.1)
    else if cc.2 == "removed" then some ("  ❌ Removed column: " ++ cc.1)
    else if pyStartsWith cc.2 ("type_changed") then some ("  🔄 " ++ cc.1 ++ ": " ++ cc.2)
    else none)

/-- `SchemaDrift.generate_migration_notes`. -/
def generate_migration_notes (digest : String → String) (old newS : JVal) :
    List String :=
  if !has_changes digest old newS then ["No schema changes detected."]
  else
    (get_table_changes old newS).flatMap (fun tc =>
      if tc.2 == "added" then ["✅ New table: " ++ tc.1]
      else if tc.2 == "removed" then ["❌ Removed table: " ++ tc.1]
      else if tc.2 == "modified" then
        ("📝 Modified table: " ++ tc.1) :: columnNotes (get_column_changes old newS tc.1)
      else [])

/-- `schema_drift.check_pack_compatibility`.  `packFp` is
`front.get("schema_fingerprint")` of the pack (`none` when absent; Python
`if not pack_schema_fp` also treats `""` as missing).  `history` is the
successfully parsed contents of the `DIRS["schema"]` glob in glob order —
files that fail to parse are skipped by the code.  The source takes the
first history entry whose fingerprint matches and then re-tests it with
`if not old_schema`, so a falsy parsed file is also reported as not
found. -/
def check_pack_compatibility (digest : String → String) (packFp : Option String)
    (current_schema : JVal) (history : List JVal) : String × List String :=
  match packFp with
  | none => ("unknown", ["Pack has no schema fingerprint"])
  | some pfp =>
    if pfp = "" then ("unknown", ["Pack has no schema fingerprint"])
    else
      let current_fp := fingerprint_schema_json digest current_schema
      if pfp = current_fp then ("identical", ["Schema fingerprints match exactly"])
      else
        match history.find? (fun s => fingerprint_schema_json digest s == pfp) with
        | none => ("unknown", ["Cannot find original schema file for comparison"])
        | some old_schema =>
          if pyFalsy old_schema then
            ("unknown", ["Cannot find original schema file for comparison"])
          else
            (get_compatibility_level digest old_schema current_schema,
              generate_migration_notes digest old_schema current_schema)

/-- C9. `diff(S, S)` has level `identical` and exactly the single
informational note, for every schema value and digest function. -/
theorem c9_diff_identity (digest : String → String) (S : JVal) :
    get_compatibility_level digest S S = "identical" ∧
      generate_migration_notes digest S S = ["No schema changes detected."] := by
  have h : has_changes digest S S = false := by simp [has_changes]
  constructor
  · simp [get_compatibility_level, h]
  · simp [generate_migration_notes, h]

/-- A snapshot in the shape the spec's data model prescribes
(schema→table→column→type, as `introspect_postgres` builds it): one schema
`public` with one table `users` with one column `id`. -/
def c2_old : JVal :=
  .obj [("public", .obj [("users", .obj [("id", .str ("integer"))])])]

/-- `c2_old` with table `users` removed. -/
def c2_new : JVal := .obj [("public", .obj [])]

/-- C2 (failing-input evaluation).  On snapshots in the spec's
schema→table→column→type shape, removing a table yields `compatible`, not
`breaking`: `get_compatibility_level` looks the tables up under a literal
`"tables"` key that such snapshots do not have, so no removal is ever
seen.  (`fingerprint_schema_json` does differ on the two inputs, so the
`identical` branch is not taken.) -/
theorem c2_table_removal_spec_shape_not_breaking :
    get_compatibility_level (fun s => s) c2_old c2_new = "compatible" ∧
      get_compatibility_level (fun s => s) c2_old c2_new ≠ "breaking" := by
  constructor
  · rfl
  · decide

/-- C3. `check_pack_compatibility` guard behaviour: missing (or empty)
stored fingerprint gives `unknown` with its explanatory note; a stored
fingerprint equal to the fingerprint of `current_schema` gives `identical`
for every history; and when no history snapshot fingerprints to the stored
value the result is exactly `unknown` with the not-found note — never a
guessed `compatible`/`breaking`. -/
theorem c3_check_pack_guards (digest : String → String) (cur : JVal)
    (history : List JVal) :
    check_pack_compatibility digest none cur history
        = ("unknown", ["Pack has no schema fingerprint"]) ∧
      check_pack_compatibility digest (some ("")) cur history
        = ("unknown", ["Pack has no schema fingerprint"]) ∧
      check_pack_compatibility digest
          (some (fingerprint_schema_json digest cur)) cur history
        = ("identical", ["Schema fingerprints match exactly"]) ∧
      ∀ pfp : String, pfp ≠ "" → pfp ≠ fingerprint_schema_json digest cur →
        (∀ s ∈ history, fingerprint_schema_json digest s ≠ pfp) →
        check_pack_compatibility digest (some pfp) cur history
          = ("unknown", ["Cannot find original schema file for comparison"]) := by
  refine ⟨rfl, rfl, ?_, ?_⟩
  · have hne : fingerprint_schema_json digest cur ≠ "" := by
      unfold fingerprint_schema_json
      intro h
      have hlen := congrArg String.length h
      rw [String.length_append] at hlen
      simp at hlen
      exact absurd hlen.1 (by decide)
    simp [check_pack_compatibility, if_neg hne]
  · intro pfp h1 h2 h3
    have hfind : history.find? (fun s => fingerprint_schema_json digest s == pfp) = none := by
      rw [List.find?_eq_none]
      intro s hs
      simpa using h3 s hs
    simp only [check_pack_compatibility, if_neg h1, if_neg h2, hfind]

/-- Witness for C3 at a concrete pack fingerprint, schema and history. -/
theorem c3_witness :
    ("x" ≠ "") ∧ ("x" ≠ fingerprint_schema_json (fun s => s) JVal.null) ∧
      check_pack_compatibility (fun s => s) none JVal.null [] =
        ("unknown", ["Pack has no schema fingerprint"]) ∧
      check_pack_compatibility (fun s => s) (some ("x")) JVal.null [] =
        ("unknown", ["Cannot find original schema file for comparison"]) := by
  refine ⟨by decide, by decide, ?_, ?_⟩
  · exact (c3_check_pack_guards (fun s => s) JVal.null []).1
  · exact (c3_check_pack_guards (fun s => s) JVal.null []).2.2.2 "x"
      (by decide) (by decide) (by simp)

/-- One entry of a pack's `artifacts` front-matter list: a YAML mapping
with `hash` and `kind` keys (the `artifact.get` defaults `""` and
`"unknown"` already applied). -/
structure ArtifactRef where
  hash : String
  kind : String

/-- Python `str()` of the artifact mapping.  `compose_context` iterates the
raw front-matter entries and passes each one where `_load_artifact_by_hash`
expects a hash, so the glob key it builds is the dict's string form. -/
def ArtifactRef.reprStr (a : ArtifactRef) : String :=
  "\x7b\x27hash\x27: \x27" ++ a.hash ++ "\x27, \x27kind\x27: \x27" ++ a.kind ++ "\x27\x7d"

/-- The front-matter fields of a pack document that the composer reads. -/
structure Front where
  title : Option String
  project : Option String
  artifacts : List ArtifactRef
  source_chat_hash : Option String
  tables : List String

/-- Everything a `ContextComposer` run touches outside its own logic: the
file system, the tokenizer, the vector index, the docs database and the
OpenAI calls.  All are modelled as pure functions; a `none` result models
an exception raised by the call. -/
structure Env where
  /-- `load_md(path)`: front matter and body; `none` = exception. -/
  loadMd : String → Option (Front × String)
  /-- `est_tokens`: the tiktoken-based estimator (a nonnegative count). -/
  est : String → Nat
  /-- `_load_artifact_by_hash`, keyed by the `str()` of its argument. -/
  artStore : String → Option String
  /-- `_get_artifact_type`, same key. -/
  artTypeOf : String → String
  /-- whether a truthy `current_schema` was passed to `compose_context`. -/
  hasSchema : Bool
  /-- `check_pack_compatibility(path, current_schema)` level; `none` =
      exception. -/
  compat : String → Option String
  /-- stage-2 artifact oracle reply for a pack path; `none` = exception. -/
  oracle2 : String → Option String
  /-- stage-1 pack-selection oracle reply; `none` = exception. -/
  oracle1 : Option String
  /-- whether `OPENAI_API_KEY` is set. -/
  hasKey : Bool
  /-- stored index: document paths paired with the cosine similarity of
      their stored vector against the query embedding (`none` = the index
      files do not exist).  Embedding and cosine arithmetic happen outside
      the ranking logic and enter it only through these scores. -/
  idx : Option (List (String × ℚ))
  /-- `SELECT project FROM docs WHERE path=?`; `none` = no row. -/
  projectOf : String → Option String
  /-- the composer's project filter (`None` or a project name). -/
  project : Option String

/-- Similarity comparison on stored-vector indices, descending. -/
def simLE (sims : List ℚ) (i j : Nat) : Prop := sims.getD j 0 ≤ sims.getD i 0

instance (sims : List ℚ) : DecidableRel (simLE sims) :=
  fun _ _ => inferInstanceAs (Decidable (_ ≤ _))

instance (sims : List ℚ) : IsTotal Nat (simLE sims) := ⟨fun _ _ => le_total _ _⟩

instance (sims : List ℚ) : IsTrans Nat (simLE sims) :=
  ⟨fun _ _ _ h1 h2 => le_trans h2 h1⟩

/-- `faiss_store.search`: with no index return `[]`; otherwise rank the
stored vectors by similarity descending (`np.argsort(similarities)[::-1]`,
determinized here by a sort on indices — only the order of equal scores is
unspecified in the source), take `top_k`, and keep only strictly positive
similarities. -/
def search (idx : Option (List (String × ℚ))) (top_k : Nat) : List (String × ℚ) :=
  match idx with
  | none => []
  | some entries =>
    ((List.insertionSort (simLE (entries.map Prod.snd))
        (List.range entries.length)).take top_k).filterMap (fun i =>
      if 0 < (entries.map Prod.snd).getD i 0 then
        some ((entries.map Prod.fst).getD i "", (entries.map Prod.snd).getD i 0)
      else none)

/-- `ContextComposer.find_relevant_contexts`: semantic search with
`top_k=15`, keep pack documents (path contains `"/packs/"` and ends with
`".md"`), drop hits whose docs-DB row names a different project when a
project filter is set (hits without a row are kept), return the first
10. -/
def find_relevant_contexts (env : Env) : List (String × ℚ) :=
  ((search env.idx 15).filter (fun h =>
    containsSub h.1 ("/packs/") && pyEndsWith h.1 (".md") &&
      (match env.project with
       | none => true
       | some proj =>
         match env.projectOf h.1 with
         | none => true
         | some rowProj => rowProj == proj))).take 10

/-- Python `int(s)`: strip whitespace, optional sign, decimal digits.
(Python additionally accepts underscores between digits and non-ASCII
digits; no claim depends on those.) -/
def pyInt (s : String) : Option Int :=
  let t := pyStrip s
  let sign : Int := if pyStartsWith t ("-") then -1 else 1
  let digits := if pyStartsWith t ("-") || pyStartsWith t ("+") then
    String.mk t.data.tail else t
  if digits ≠ "" ∧ digits.data.all Char.isDigit then
    some (sign * (digits.data.foldl (fun acc c => acc * 10 + (c.toNat - 48)) (0 : Nat) : Nat))
  else none

/-- The reply-processing step of `ContextComposer._llm_rank_contexts`
(stage 1): lowercase/strip the reply; the literal `"none"` selects nothing;
otherwise parse comma-separated 1-based indices — when every token parses
(`int(x.strip())` in a list comprehension raises on the first bad token),
keep the in-range ones and map them to candidate paths in reply order; when
parsing raises, fall back to the first two candidates.  In the source the
successful branch is then routed through stage 2
(`_select_artifacts_for_contexts`); the other branches are returned
directly. -/
def llmSelect (reply : String) (candPaths : List String) : List String :=
  let selection_text := pyLower (pyStrip reply)
  if selection_text = "none" then []
  else
    match (pySplit selection_text ',').mapM pyInt with
    | some ns =>
      (ns.map (fun n => n - 1)).filterMap (fun i =>
        if 0 ≤ i ∧ i < (candPaths.length : Int) then candPaths[i.toNat]? else none)
    | none => candPaths.take 2

/-- `ContextComposer._select_artifacts_for_contexts` (stage 2): per
selected pack, ask the artifact oracle; a parseable non-`"none"` reply
appends the selected 0-based indices to the path as a `|artifacts:`
annotation; a `"none"` reply, a parse failure, an oracle exception, a load
exception or an empty artifact list leaves the plain path. -/
def select_artifacts_for_contexts (env : Env) (selected : List String) : List String :=
  selected.map (fun path =>
    match env.loadMd path with
    | none => path
    | some (front, _body) =>
      if front.artifacts.isEmpty then path
      else
        match env.oracle2 path with
        | none => path
        | some reply =>
          let artifact_selection := pyLower (pyStrip reply)
          if artifact_selection != "none" then
            match (pySplit artifact_selection ',').mapM pyInt with
            | some ns =>
              path ++ "|artifacts:" ++
                String.intercalate (",") ((ns.map (fun n => n - 1)).map toString)
            | none => path
          else path)

/-- `ContextComposer._heuristic_rank_contexts`: sort the candidates by
similarity score descending (only the order of equal scores is left
unspecified by Python's stable sort) and return the top 3 paths. -/
def heuristic_rank_contexts (cands : List (String × ℚ)) : List String :=
  ((List.insertionSort (fun a b : String × ℚ => b.2 ≤ a.2) cands).take 3).map Prod.fst

/-- `ContextComposer.rank_contexts_with_llm`: search+filter, load candidate
summaries (failed loads are skipped; only the path/score pair matters to
the ranking logic), then: no candidates → `[]`; no API key or oracle
failure → heuristic top 3; otherwise the stage-1 reply processing of
`llmSelect`, with its successful branch routed through stage 2. -/
def rank_contexts_with_llm (env : Env) : List String :=
  let candidates := find_relevant_contexts env
  if candidates.isEmpty then []
  else
    let candidate_info := candidates.filterMap (fun pr =>
      match env.loadMd pr.1 with
      | some _ => some pr
      | none => none)
    if candidate_info.isEmpty then []
    else if env.hasKey then
      match env.oracle1 with
      | none => heuristic_rank_contexts candidate_info
      | some reply =>
        let selection_text := pyLower (pyStrip reply)
        if selection_text = "none" then []
        else
          match (pySplit selection_text ',').mapM pyInt with
          | some ns =>
            select_artifacts_for_contexts env
              ((ns.map (fun n => n - 1)).filterMap (fun i =>
                if 0 ≤ i ∧ i < (candidate_info.length : Int) then
                  (candidate_info.map Prod.fst)[i.toNat]? else none))
          | none => (candidate_info.map Prod.fst).take 2
    else heuristic_rank_contexts candidate_info

/-- Accumulator of the `compose_context` pack loop. -/
structure CState where
  parts : List String
  total : Nat
  used : List String

/-- `Path(path).name`: the last `/`-separated component. -/
def pathName (path : String) : String := (pySplit path '/').getLastD ""

/-- The schema-compatibility annotation of one pack section; exceptions
from `check_pack_compatibility` are swallowed, and only `breaking` /
`compatible` produce a marker. -/
def compatNote (env : Env) (path : String) : String :=
  if env.hasSchema then
    match env.compat path with
    | some lvl =>
      if lvl = "breaking" then " [SCHEMA WARNING: Breaking changes detected]"
      else if lvl = "compatible" then " [SCHEMA: Compatible with changes]"
      else ""
    | none => ""
  else ""

/-- One artifact subsection of a pack section. -/
def artifactSection (typ content : String) : String :=
  "\n### Artifact (" ++ typ ++ "):\n```" ++ typ ++ "\n" ++ pyTake content 500 ++
    (if 500 < content.length then "..." else "") ++ "\n```\n"

/-- The artifact subsections of one pack: the first 3 front-matter entries,
each kept only when its content loads and the pack-loop total plus the
subsection estimate stays below 70% of the available budget (`0.7` is a
binary float in Python; no claim depends on the threshold's exact
value). -/
def artifactSectionsFor (env : Env) (avail : Int) (total : Nat)
    (arts : List ArtifactRef) : List String :=
  (arts.take 3).filterMap (fun a =>
    match env.artStore a.reprStr with
    | none => none
    | some content =>
      let sec := artifactSection (env.artTypeOf a.reprStr) content
      if ((total + env.est sec : Nat) : ℚ) < (avail : ℚ) * mkRat 7 10 then some sec
      else none)

/-- The full section text for one pack. -/
def fullSection (env : Env) (avail : Int) (total : Nat) (path : String)
    (front : Front) (body : String) : String :=
  "\n## Context: " ++ front.title.getD ("Unknown") ++ " (Project: " ++
    front.project.getD ("Unknown") ++ ")" ++ compatNote env path ++ "\n" ++ body ++
    "\n" ++ String.join (artifactSectionsFor env avail total front.artifacts) ++
    "\nArtifacts available: " ++ toString front.artifacts.length ++
    " code/SQL blocks\nSource: " ++
    pyTake (front.source_chat_hash.getD ("Unknown")) 12 ++ "...\n"

/-- The truncated variant: body cut to 500 characters, artifacts dropped. -/
def truncSection (env : Env) (path : String) (front : Front) (body : String) : String :=
  "\n## Context: " ++ front.title.getD ("Unknown") ++ " (Project: " ++
    front.project.getD ("Unknown") ++ ")" ++ compatNote env path ++ "\n" ++
    pyTake body 500 ++ "...\n\n[Truncated - full context available in " ++
    pathName path ++ "]\n"

/-- The pack loop of `compose_context`: packs in selector order; a pack
whose load raises is skipped; a full section is appended while it fits;
when it does not fit, the truncated variant is appended if it fits and the
loop breaks either way. -/
def composeGo (env : Env) (avail : Int) : List String → CState → CState
  | [], s => s
  | path :: rest, s =>
    match env.loadMd path with
    | none => composeGo env avail rest s
    | some (front, body) =>
      if (s.total + env.est (fullSection env avail s.total path front body) : Int) > avail then
        if (s.total + env.est (truncSection env path front body) : Int) ≤ avail then
          { parts := s.parts ++ [truncSection env path front body],
            total := s.total + env.est (truncSection env path front body),
            used := s.used ++ [pathName path] }
        else s
      else
        composeGo env avail rest
          { parts := s.parts ++ [fullSection env avail s.total path front body],
            total := s.total + env.est (fullSection env avail s.total path front body),
            used := s.used ++ [pathName path] }

/-- `ContextComposer.compose_context` with `available = max_tokens - 500`
as set in `__init__`. -/
def compose_context (env : Env) (selected_paths : List String) (prompt : String)
    (max_tokens : Int) : String :=
  if selected_paths.isEmpty then
    "[CONTEXTKIT] No relevant context found.\n\n" ++ prompt
  else
    let s := composeGo env (max_tokens - 500) selected_paths ⟨[], 0, []⟩
    if s.parts.isEmpty then "[CONTEXTKIT] No context could be loaded.\n\n" ++ prompt
    else
      "[CONTEXTKIT] Auto-selected context from " ++ toString s.used.length ++
        " ContextPack(s): " ++ String.intercalate (", ") s.used ++
        "\nEstimated tokens: " ++ toString s.total ++ "/" ++ toString max_tokens ++
        "\n" ++ "\n" ++ String.intercalate ("\n") s.parts ++
        "\n\n[END CONTEXT]\n\n" ++ prompt

theorem composeGo_budget (env : Env) (avail : Int) :
    ∀ (paths : List String) (s : CState),
      ((s.total : Int) ≤ avail ∨ (s.total = 0 ∧ s.parts = [])) →
      (((composeGo env avail paths s).total : Int) ≤ avail ∨
        ((composeGo env avail paths s).total = 0 ∧
          (composeGo env avail paths s).parts = [])) := by
  intro paths
  induction paths with
  | nil => intro s h; exact h
  | cons path rest ih =>
    intro s h
    simp only [composeGo]
    cases hload : env.loadMd path with
    | none => exact ih s h
    | some fb =>
      obtain ⟨front, body⟩ := fb
      dsimp only
      by_cases hfull :
        (s.total + env.est (fullSection env avail s.total path front body) : Int) > avail
      · rw [if_pos hfull]
        by_cases htr :
          (s.total + env.est (truncSection env path front body) : Int) ≤ avail
        · rw [if_pos htr]
          left
          exact_mod_cast htr
        · rw [if_neg htr]
          exact h
      · rw [if_neg hfull]
        refine ih _ ?_
        left
        push_neg at hfull
        exact_mod_cast hfull

/-- C4. Budget invariant of `compose_context`: whenever the pack loop
produced at least one section (exactly the case in which the output
carries the header, whose reported count is the loop's `total`), that
total is at most `available = max_tokens - 500`, hence at most
`max_tokens` — for every environment, estimator, selected list, prompt and
budget. -/
theorem c4_budget_invariant (env : Env) (selected : List String)
    (max_tokens : Int)
    (h : (composeGo env (max_tokens - 500) selected ⟨[], 0, []⟩).parts ≠ []) :
    ((composeGo env (max_tokens - 500) selected ⟨[], 0, []⟩).total : Int)
        ≤ max_tokens - 500 ∧
      ((composeGo env (max_tokens - 500) selected ⟨[], 0, []⟩).total : Int)
        ≤ max_tokens := by
  rcases composeGo_budget env (max_tokens - 500) selected ⟨[], 0, []⟩
      (Or.inr ⟨rfl, rfl⟩) with h1 | h2
  · exact ⟨h1, by omega⟩
  · exact absurd h2.2 h

/-- A minimal concrete environment: one loadable pack, constant
estimator, everything else absent. -/
def envA : Env where
  loadMd := fun p =>
    if p = "/packs/a.md" then
      some ({ title := some ("A"), project := some ("P"), artifacts := [],
              source_chat_hash := none, tables := [] }, "body")
    else none
  est := fun _ => 1
  artStore := fun _ => none
  artTypeOf := fun _ => "unknown"
  hasSchema := false
  compat := fun _ => none
  oracle2 := fun _ => none
  oracle1 := none
  hasKey := false
  idx := none
  projectOf := fun _ => none
  project := none

/-- Witness for C4 at a concrete environment and budget. -/
theorem c4_witness :
    (composeGo envA (8000 - 500) ["/packs/a.md"] ⟨[], 0, []⟩).parts ≠ [] ∧
      ((composeGo envA (8000 - 500) ["/packs/a.md"] ⟨[], 0, []⟩).total : Int) ≤ 8000 := by
  have hp : (composeGo envA (8000 - 500) ["/packs/a.md"] ⟨[], 0, []⟩).parts ≠ [] := by
    decide
  exact ⟨hp, (c4_budget_invariant envA ["/packs/a.md"] 8000 hp).2⟩

theorem filterMap_guard {α β : Type} (c : α → Prop) [DecidablePred c] (g : α → β) :
    ∀ l : List α,
      (l.filterMap (fun a => if c a then some (g a) else none)) =
        (l.filter (fun a => decide (c a))).map g := by
  intro l
  induction l with
  | nil => rfl
  | cons x xs ih => by_cases h : c x <;> simp [h, ih]

/-- C5. `search` contract: with no index it returns `[]` (and does not
raise — it is a total function); otherwise it returns at most `k` pairs,
ordered by descending similarity score, none of them with score ≤ 0. -/
theorem c5_search_contract :
    (∀ k : Nat, search none k = []) ∧
      ∀ (entries : List (String × ℚ)) (k : Nat),
        (search (some entries) k).length ≤ k ∧
          (search (some entries) k).Pairwise (fun a b => b.2 ≤ a.2) ∧
          ∀ p ∈ search (some entries) k, 0 < p.2 := by
  refine ⟨fun _ => rfl, ?_⟩
  intro entries k
  have hrw :
      search (some entries) k =
        (((List.insertionSort (simLE (entries.map Prod.snd))
            (List.range entries.length)).take k).filter
          (fun i => decide (0 < (entries.map Prod.snd).getD i 0))).map
          (fun i => ((entries.map Prod.fst).getD i "", (entries.map Prod.snd).getD i 0)) := by
    simp only [search]
    rw [filterMap_guard (fun i => 0 < (entries.map Prod.snd).getD i 0)
      (fun i => ((entries.map Prod.fst).getD i "", (entries.map Prod.snd).getD i 0))]
  have hsorted :
      ((List.insertionSort (simLE (entries.map Prod.snd))
          (List.range entries.length)).take k).Pairwise (simLE (entries.map Prod.snd)) :=
    (List.sorted_insertionSort (simLE (entries.map Prod.snd)) _).sublist
      (List.take_sublist _ _)
  refine ⟨?_, ?_, ?_⟩
  · rw [hrw, List.length_map]
    have h1 := List.length_filter_le
      (fun i => decide (0 < (entries.map Prod.snd).getD i 0))
      ((List.insertionSort (simLE (entries.map Prod.snd))
        (List.range entries.length)).take k)
    have h2 : ((List.insertionSort (simLE (entries.map Prod.snd))
        (List.range entries.length)).take k).length ≤ k := by
      simp [List.length_take]
    omega
  · rw [hrw]
    refine List.Pairwise.map _ (fun a b hab => hab) ?_
    exact hsorted.sublist (List.filter_sublist _)
  · intro p hp
    rw [hrw] at hp
    simp only [List.mem_map, List.mem_filter, decide_eq_true_eq] at hp
    obtain ⟨i, ⟨_, hpos⟩, rfl⟩ := hp
    exact hpos

/-- Witness for C5 at a concrete index and query scores. -/
theorem c5_witness :
    search (none : Option (List (String × ℚ))) 3 = [] ∧
      ("a", (1 : ℚ)) ∈ search (some [("a", (1 : ℚ))]) 5 ∧
      (0 : ℚ) < ("a", (1 : ℚ)).2 := by
  refine ⟨c5_search_contract.1 3, by decide, ?_⟩
  exact (c5_search_contract.2 [("a", (1 : ℚ))] 5).2.2 _ (by decide)

/-- Pack metadata for the compose scenarios: no artifacts. -/
def front1 : Front where
  title := some ("T1")
  project := some ("P")
  artifacts := []
  source_chat_hash := none
  tables := []

/-- Body of pack 1 in the truncation scenario. -/
def body1 : String := "b1body"

/-- Environment for the truncation scenario: two loadable packs; the
estimator charges 10000 tokens for pack 1's full section (recognized by
its title and the absence of the truncation marker) and 1 token for
everything else.  With `available = 7500`: pack 1's full section does not
fit, its truncated variant does, and pack 2's full section would also
fit.  (The estimator is opaque to the composer; any `String → Nat`
function stands for `est_tokens`.) -/
def envB : Env :=
  { envA with
    loadMd := fun p =>
      if p = "/packs/p1.md" then some (front1, body1)
      else if p = "/packs/p2.md" then
        some ({ front1 with title := some ("T2") }, "short")
      else none
    est := fun sec =>
      if containsSub sec ("[Truncated") || !containsSub sec ("T1") then 1
      else 10000 }

set_option maxRecDepth 20000 in
/-- C8 (counterexample).  With `envB`, pack 1's full section does not fit
and its truncated variant does: the source appends the truncated variant
and then stops — pack 2 is never processed (first conjunct) — even though,
resumed from the very state the truncation left, pack 2's section fits and
would be appended (second conjunct).  So a pack whose truncated variant
fits does not keep the subsequent selected packs in consideration. -/
theorem c8_counterexample :
    (composeGo envB 7500 ["/packs/p1.md", "/packs/p2.md"] ⟨[], 0, []⟩).used
        = ["p1.md"] ∧
      (composeGo envB 7500 ["/packs/p2.md"]
          (composeGo envB 7500 ["/packs/p1.md"] ⟨[], 0, []⟩)).used
        = ["p1.md", "p2.md"] := by
  constructor
  · exact rfl
  · exact rfl

set_option maxRecDepth 20000 in
/-- C8 (amended).  Packs are processed in selector-returned order; when a
pack's full section would exceed the remaining budget, the truncated
variant (body cut to 500 characters, artifacts dropped) is attempted and —
whether or not it fits and is appended — processing of further packs
stops; when the full section fits, it is appended and the remaining packs
are still considered. -/
theorem c8_truncation_always_stops (env : Env) (avail : Int) (path : String)
    (rest : List String) (s : CState) (front : Front) (body : String)
    (hload : env.loadMd path = some (front, body)) :
    ((s.total + env.est (fullSection env avail s.total path front body) : Int) > avail →
      composeGo env avail (path :: rest) s =
        (if (s.total + env.est (truncSection env path front body) : Int) ≤ avail then
          { parts := s.parts ++ [truncSection env path front body],
            total := s.total + env.est (truncSection env path front body),
            used := s.used ++ [pathName path] }
        else s)) ∧
      (¬ (s.total + env.est (fullSection env avail s.total path front body) : Int) > avail →
        composeGo env avail (path :: rest) s =
          composeGo env avail rest
            { parts := s.parts ++ [fullSection env avail s.total path front body],
              total := s.total + env.est (fullSection env avail s.total path front body),
              used := s.used ++ [pathName path] }) := by
  constructor
  · intro hc
    simp only [composeGo, hload]
    rw [if_pos hc]
  · intro hc
    simp only [composeGo, hload]
    rw [if_neg hc]

set_option maxRecDepth 20000 in
/-- Witness for the amended C8 at the concrete scenario environment. -/
theorem c8_witness :
    envB.loadMd "/packs/p1.md" = some (front1, body1) ∧
      ((0 : Nat) + envB.est (fullSection envB 7500 0 "/packs/p1.md" front1 body1) : Int)
        > 7500 ∧
      composeGo envB 7500 ["/packs/p1.md", "/packs/p2.md"] ⟨[], 0, []⟩ =
        (if ((0 : Nat) + envB.est (truncSection envB "/packs/p1.md" front1 body1) : Int)
            ≤ 7500 then
          { parts := ([] : List String) ++ [truncSection envB "/packs/p1.md" front1 body1],
            total := 0 + envB.est (truncSection envB "/packs/p1.md" front1 body1),
            used := ([] : List String) ++ [pathName "/packs/p1.md"] }
        else ⟨[], 0, []⟩) := by
  refine ⟨rfl, by decide, ?_⟩
  exact (c8_truncation_always_stops envB 7500 "/packs/p1.md" ["/packs/p2.md"]
    ⟨[], 0, []⟩ front1 body1 rfl).1 (by decide)

/-- Pack metadata with one artifact, for the C6 scenario. -/
def front6 : Front where
  title := some ("T")
  project := some ("P")
  artifacts := [{ hash := "h1", kind := "sql" }]
  source_chat_hash := none
  tables := []

/-- Environment for C6: one loadable pack with one artifact; the stage-2
artifact oracle answers "1". -/
def envC : Env :=
  { envA with
    loadMd := fun p => if p = "/packs/p1.md" then some (front6, "body") else none
    oracle2 := fun _ => some ("1") }

/-- C6 (failing-input evaluation).  When the stage-2 sub-call succeeds,
the selector returns the pack identity with the `|artifacts:` annotation
appended (first conjunct) — but `compose_context` never parses that
annotation: `load_md` on the annotated path raises (no such file), the
pack is skipped, and the output is the no-context notice (second
conjunct), whereas the same pack under its plain path is included (third
conjunct).  Stage-2 success therefore excludes the pack from the composed
output, contrary to the claim and to the source's own comment that the
stored selection "will be used in compose_context". -/
theorem c6_annotation_excludes_pack :
    select_artifacts_for_contexts envC ["/packs/p1.md"] = ["/packs/p1.md|artifacts:0"] ∧
      compose_context envC ["/packs/p1.md|artifacts:0"] "q" 8000 =
        "[CONTEXTKIT] No context could be loaded.\n\nq" ∧
      compose_context envC ["/packs/p1.md"] "q" 8000 ≠
        "[CONTEXTKIT] No context could be loaded.\n\nq" := by
  refine ⟨rfl, rfl, by decide⟩

/-- Environment for the C7 scenario: three indexed packs scored 0.91,
0.60, 0.05 against the prompt, all loadable, no OpenAI key (oracle
disabled), no project filter. -/
def envD : Env :=
  { envA with
    loadMd := fun p =>
      if p = "/packs/p1.md" ∨ p = "/packs/p2.md" ∨ p = "/packs/p3.md" then
        some (front1, "b")
      else none
    idx := some [("/packs/p1.md", mkRat 91 100), ("/packs/p2.md", mkRat 3 5),
      ("/packs/p3.md", mkRat 1 20)] }

/-- C7 (counterexample).  With scores [0.91, 0.60, 0.05] and the oracle
disabled, stage-1 fallback selects all three packs, not exactly the two
highest: 0.05 > 0 passes the upstream positive-similarity filter, and the
heuristic takes the top 3. -/
theorem c7_counterexample :
    rank_contexts_with_llm envD =
        ["/packs/p1.md", "/packs/p2.md", "/packs/p3.md"] ∧
      rank_contexts_with_llm envD ≠ ["/packs/p1.md", "/packs/p2.md"] := by
  refine ⟨by decide, by decide⟩

/-- C7 (amended).  In the same scenario the fallback selects exactly the
three pack paths in descending-score order; the upstream filter keeps all
three hits because all three similarities are strictly positive. -/
theorem c7_fallback_selects_top3 :
    rank_contexts_with_llm envD =
        ["/packs/p1.md", "/packs/p2.md", "/packs/p3.md"] ∧
      search envD.idx 15 =
        [("/packs/p1.md", mkRat 91 100), ("/packs/p2.md", mkRat 3 5),
          ("/packs/p3.md", mkRat 1 20)] := by
  refine ⟨by decide, by decide⟩

theorem mapM_none_of_all_none {toks : List String} (h0 : toks ≠ [])
    (h : ∀ t ∈ toks, pyInt t = none) : toks.mapM pyInt = none := by
  cases toks with
  | nil => exact absurd rfl h0
  | cons t ts =>
    have ht := h t (List.mem_cons_self _ _)
    rw [List.mapM_cons, ht]
    rfl

/-- C10.  Stage-1 reply processing of `_llm_rank_contexts`: (a) when every
comma-separated token of the normalized reply parses as an integer, each
1-based index outside the candidate range is silently discarded and the
remaining valid indices are mapped to candidate paths in the oracle-given
order; (b) when no token parses as an integer — and the normalized reply
is not the literal sentinel `"none"` — selection falls back to the first
two candidates instead of propagating the parse error; (c) the `"none"`
sentinel (whose token does not parse either) selects nothing.  `llmSelect`
is a total function: no branch raises.  (`str.split` always yields at
least one token, so the non-empty token-list hypothesis in (b) always
holds of the source.) -/
theorem c10_parse_and_fallback :
    (∀ (reply : String) (cands : List String) (ns : List Int),
        pyLower (pyStrip reply) ≠ "none" →
        (pySplit (pyLower (pyStrip reply)) ',').mapM pyInt = some ns →
        llmSelect reply cands =
          ((ns.map (fun n => n - 1)).filter
              (fun i => decide (0 ≤ i ∧ i < (cands.length : Int)))).map
            (fun i => cands.getD i.toNat "")) ∧
      (∀ (reply : String) (cands : List String),
        pyLower (pyStrip reply) ≠ "none" →
        pySplit (pyLower (pyStrip reply)) ',' ≠ [] →
        (∀ t ∈ pySplit (pyLower (pyStrip reply)) ',', pyInt t = none) →
        llmSelect reply cands = cands.take 2) ∧
      ∀ (reply : String) (cands : List String),
        pyLower (pyStrip reply) = "none" → llmSelect reply cands = [] := by
  refine ⟨?_, ?_, ?_⟩
  · intro reply cands ns hne hparse
    simp only [llmSelect, if_neg hne, hparse]
    have hcong : ∀ i ∈ ns.map (fun n => n - 1),
        (if 0 ≤ i ∧ i < (cands.length : Int) then cands[i.toNat]? else none) =
          (if 0 ≤ i ∧ i < (cands.length : Int) then some (cands.getD i.toNat "")
           else none) := by
      intro i _
      by_cases hP : 0 ≤ i ∧ i < (cands.length : Int)
      · rw [if_pos hP, if_pos hP]
        have hlt : i.toNat < cands.length := by omega
        rw [List.getElem?_eq_getElem hlt, List.getD_eq_getElem?_getD,
          List.getElem?_eq_getElem hlt]
        rfl
      · rw [if_neg hP, if_neg hP]
    rw [List.filterMap_congr hcong]
    exact filterMap_guard (fun i : Int => 0 ≤ i ∧ i < (cands.length : Int))
      (fun i => cands.getD i.toNat "") _
  · intro reply cands hne h0 hall
    simp only [llmSelect, if_neg hne, mapM_none_of_all_none h0 hall]
  · intro reply cands hnone
    simp [llmSelect, hnone]

/-- C10 (counterexample to the claim as stated).  The reply `"none"` has
no token that parses as an integer, yet selection is `[]`, not the
first-two-candidates prefix: the fallback description does not cover the
`"none"` sentinel, which is handled by an earlier branch. -/
theorem c10_counterexample :
    (∀ t ∈ pySplit (pyLower (pyStrip "none")) ',', pyInt t = none) ∧
      llmSelect "none" ["a", "b", "c"] = [] ∧
      llmSelect "none" ["a", "b", "c"] ≠ (["a", "b", "c"]).take 2 := by
  refine ⟨by decide, rfl, by decide⟩

/-- Witness for C10 at concrete replies: "5" parses but is out of range
for a two-candidate list (selection empty); "abc" parses nowhere
(selection falls back to the first two candidates). -/
theorem c10_witness :
    llmSelect "5" ["a", "b"] = [] ∧ llmSelect "abc" ["a", "b", "c"] = ["a", "b"] := by
  constructor
  · have h := c10_parse_and_fallback.1 "5" ["a", "b"] [5] (by decide) (by decide)
    rw [h]
    decide
  · have h := c10_parse_and_fallback.2.1 "abc" ["a", "b", "c"] (by decide)
      (by decide) (by decide)
    rw [h]
    decide

end ContextKit
